import Mathlib

/-!
Verification of the RA15-6DOF-Arm kernel configuration (`kernel_cfg.c`,
TOPPERS/OSEK, JointTest application) and of the OSEK kernel runtime it
configures.  The static tables (task priorities, activation limits,
auto-activation masks, counter bounds, alarm cycles, resource ceiling)
are embedded directly from `src/RA15_Joint_Test/kernel_cfg.c`.  The
kernel runtime itself (task.c / resource.c / alarm.c of TOPPERS OSEK) is
not part of the repository snapshot, so its operations are modelled from
the specification and marked as such in their doc comments.  The member
priority base `TPRI_MINTASK` comes from a header that is also absent; all
definitions are parameterised over it (argument `m`).
-/

namespace RA15

/-! ### Static configuration tables, from kernel_cfg.c -/

/-- Number of tasks, kernel_cfg.c line 21 (`TNUM_TASK 3`). -/
def tnum_task : Nat := 3

/-- Number of resources, kernel_cfg.c line 20 (`TNUM_RESOURCE 1`). -/
def tnum_resource : Nat := 1

/-- Number of counters, kernel_cfg.c line 18 (`TNUM_COUNTER 1`). -/
def tnum_counter : Nat := 1

/-- Number of alarms, kernel_cfg.c line 17 (`TNUM_ALARM 2`). -/
def tnum_alarm : Nat := 2

/-- Task identifier, kernel_cfg.c line 35. -/
def MotorRegulatorTask : Nat := 0

/-- Task identifier, kernel_cfg.c line 36. -/
def LCDTask : Nat := 1

/-- Task identifier, kernel_cfg.c line 37. -/
def MainTask : Nat := 2

/-- Counter identifier, kernel_cfg.c line 66. -/
def SysTimerCnt : Nat := 0

/-- Resource identifier, kernel_cfg.c line 104. -/
def Motors : Nat := 0

/-- Alarm identifier, kernel_cfg.c line 78. -/
def MotorRegulatorAlarm : Nat := 0

/-- Alarm identifier, kernel_cfg.c line 79. -/
def LCDAlarm : Nat := 1

/-- Base (configured) task priorities, kernel_cfg.c line 47:
`{ TPRI_MINTASK + 10, TPRI_MINTASK + 2, TPRI_MINTASK + 1 }`.
`m` stands for `TPRI_MINTASK`; indices outside the table map to `m`. -/
def tinib_inipri (m : Nat) (t : Nat) : Nat :=
  match t with
  | 0 => m + 10
  | 1 => m + 2
  | 2 => m + 1
  | _ => m

/-- Stored activation limits, kernel_cfg.c line 49:
`{ (1)-1, (1)-1, (1)-1 }`, i.e. `0` for every task.  The stored value is
the configured maximum number of activations minus one. -/
def tinib_maxact (t : Nat) : Nat :=
  match t with
  | 0 => 0
  | 1 => 0
  | 2 => 0
  | _ => 0

/-- Auto-activation application-mode masks, kernel_cfg.c line 50:
`{ 0x00000000, 0x00000000, 0x00000001 }`. -/
def tinib_autoact (t : Nat) : Nat :=
  match t with
  | 0 => 0x00000000
  | 1 => 0x00000000
  | 2 => 0x00000001
  | _ => 0

/-- Counter maximum values, kernel_cfg.c line 68: `{ 100000 }`. -/
def cntinib_maxval (c : Nat) : Nat :=
  match c with
  | 0 => 100000
  | _ => 0

/-- Counter secondary maximum values, kernel_cfg.c line 69: `{ 200001 }`. -/
def cntinib_maxval2 (c : Nat) : Nat :=
  match c with
  | 0 => 200001
  | _ => 0

/-- Counter tick bases, kernel_cfg.c line 70: `{ 1 }`. -/
def cntinib_tickbase (c : Nat) : Nat :=
  match c with
  | 0 => 1
  | _ => 0

/-- Counter minimum cycles, kernel_cfg.c line 71: `{ 1 }`. -/
def cntinib_mincyc (c : Nat) : Nat :=
  match c with
  | 0 => 1
  | _ => 0

/-- Alarm-to-counter binding, kernel_cfg.c line 91: `{ 0, 0 }`. -/
def alminib_cntid (a : Nat) : Nat :=
  match a with
  | 0 => 0
  | 1 => 0
  | _ => 0

/-- Alarm auto-start masks, kernel_cfg.c line 93: `{ 0x00000001, 0x00000001 }`. -/
def alminib_autosta (a : Nat) : Nat :=
  match a with
  | 0 => 0x00000001
  | 1 => 0x00000001
  | _ => 0

/-- Initial alarm values (ticks to first expiry), kernel_cfg.c line 94: `{ 1, 1 }`. -/
def alminib_almval (a : Nat) : Nat :=
  match a with
  | 0 => 1
  | 1 => 1
  | _ => 0

/-- Alarm cycles, kernel_cfg.c line 95: `{ 4, 100 }`. -/
def alminib_cycle (a : Nat) : Nat :=
  match a with
  | 0 => 4
  | 1 => 100
  | _ => 0

/-- Task activated by each alarm's callback, kernel_cfg.c lines 81-92:
`_activate_alarm_MotorRegulatorAlarm` calls `ActivateTask(MotorRegulatorTask)`
and `_activate_alarm_LCDAlarm` calls `ActivateTask(LCDTask)`. -/
def alminib_cback_target (a : Nat) : Nat :=
  match a with
  | 0 => 0
  | 1 => 1
  | _ => 0

/-- Resource ceiling priorities, kernel_cfg.c line 106: `{ TPRI_MINTASK + 10 }`. -/
def resinib_ceilpri (m : Nat) (r : Nat) : Nat :=
  match r with
  | 0 => m + 10
  | _ => m

/-! ### Kernel state

Modelled from the spec: the mutable control blocks declared in
kernel_cfg.c (tcb_tstat, tcb_curpri, tcb_actcnt, tcb_lastres,
rescb_prevpri, rescb_prevres) plus the per-resource holding-task
identifier that the spec's Resource Manager maintains (section 4.2).
The `WAITING` state and the saved execution contexts are not used by
this configuration and are left out; the run-state here distinguishes
`suspended` from `ready` (selection of the running task is a separate
model, below). -/

/-- Task run state (tcb_tstat). -/
inductive TState where
  | suspended : TState
  | ready : TState
deriving DecidableEq

/-- Error codes reported by the kernel services to their caller. -/
inductive KErr where
  | E_OS_ID : KErr
  | E_OS_LIMIT : KErr
  | E_OS_ACCESS : KErr
  | E_OS_NOFUNC : KErr
deriving DecidableEq

/-- Mutable kernel state: per-task fields indexed by task id, per-resource
fields indexed by resource id. -/
structure KState where
  tstat : Nat → TState
  curpri : Nat → Nat
  actcnt : Nat → Nat
  lastres : Nat → Option Nat
  prevpri : Nat → Nat
  prevres : Nat → Option Nat
  holder : Nat → Option Nat

/-- Modelled from the spec: `Activate(task)` (OSEK `ActivateTask`, task.c is
not in the snapshot).  If the activation count is below the configured
maximum (stored limit + 1), increments it and moves a `SUSPENDED` task to
`READY`; at the maximum the request is dropped and `E_OS_LIMIT` is
reported. -/
def ActivateTask (s : KState) (t : Nat) : Except KErr KState :=
  if tnum_task ≤ t then .error .E_OS_ID
  else if s.actcnt t < tinib_maxact t + 1 then
    .ok { s with
      actcnt := fun x => if x = t then s.actcnt t + 1 else s.actcnt x,
      tstat := fun x =>
        if x = t then (if s.tstat t = .suspended then .ready else s.tstat t)
        else s.tstat x }
  else .error .E_OS_LIMIT

/-- Modelled from the spec: `Terminate(task)` (OSEK `TerminateTask`, task.c
is not in the snapshot).  Decrements the activation count; if it remains
positive the task is immediately re-activated, otherwise it becomes
`SUSPENDED`. -/
def TerminateTask (s : KState) (t : Nat) : Except KErr KState :=
  if tnum_task ≤ t then .error .E_OS_ID
  else
    .ok { s with
      actcnt := fun x => if x = t then s.actcnt t - 1 else s.actcnt x,
      tstat := fun x =>
        if x = t then (if 0 < s.actcnt t - 1 then .ready else .suspended)
        else s.tstat x }

/-- Modelled from the spec: `Acquire(task, resource)` (OSEK `GetResource`,
resource.c is not in the snapshot).  Fails if the task already holds a
resource of ceiling at least this resource's ceiling (the last-held
resource has the highest ceiling among those held, so it is the one
compared), or if the resource is held by a different task.  On success it
records the prior priority and the resource linkage, raises the task's
effective priority to the ceiling, and marks the holder. -/
def GetResource (m : Nat) (s : KState) (t r : Nat) : Except KErr KState :=
  if tnum_task ≤ t then .error .E_OS_ID
  else if tnum_resource ≤ r then .error .E_OS_ID
  else if (match s.lastres t with
           | some r0 => decide (resinib_ceilpri m r ≤ resinib_ceilpri m r0)
           | none => false) then .error .E_OS_ACCESS
  else if (match s.holder r with
           | some u => decide (u ≠ t)
           | none => false) then .error .E_OS_ACCESS
  else
    .ok { s with
      curpri := fun x => if x = t then resinib_ceilpri m r else s.curpri x,
      prevpri := fun x => if x = r then s.curpri t else s.prevpri x,
      prevres := fun x => if x = r then s.lastres t else s.prevres x,
      lastres := fun x => if x = t then some r else s.lastres x,
      holder := fun x => if x = r then some t else s.holder x }

/-- Modelled from the spec: `Release(task, resource)` (OSEK
`ReleaseResource`, resource.c is not in the snapshot).  Fails with a
reported error unless the resource is the task's most recently acquired,
still-held resource; on success restores the priority recorded at
acquisition and unlinks the resource. -/
def ReleaseResource (s : KState) (t r : Nat) : Except KErr KState :=
  if tnum_task ≤ t then .error .E_OS_ID
  else if tnum_resource ≤ r then .error .E_OS_ID
  else if s.lastres t = some r then
    .ok { s with
      curpri := fun x => if x = t then s.prevpri r else s.curpri x,
      lastres := fun x => if x = t then s.prevres r else s.lastres x,
      holder := fun x => if x = r then none else s.holder x }
  else .error .E_OS_NOFUNC

/-- Kernel API events that application code or alarm callbacks may issue. -/
inductive Ev where
  | act : Nat → Ev
  | term : Nat → Ev
  | get : Nat → Nat → Ev
  | rel : Nat → Nat → Ev

/-- Dispatch one API event. -/
def applyEv (m : Nat) (s : KState) : Ev → Except KErr KState
  | .act t => ActivateTask s t
  | .term t => TerminateTask s t
  | .get t r => GetResource m s t r
  | .rel t r => ReleaseResource s t r

/-- One step of the kernel: a failing service call reports its error to the
caller and leaves the kernel state unchanged. -/
def step (m : Nat) (s : KState) (e : Ev) : KState :=
  match applyEv m s e with
  | .ok s1 => s1
  | .error _ => s

/-- Modelled from the spec: the state after `object_initialize` (task part;
task.c is not in the snapshot).  Tasks whose auto-activation mask has the
default application-mode bit set start `READY` with one activation, all
others start `SUSPENDED`; every task starts at its base priority holding
no resource. -/
def initKState (m : Nat) : KState :=
  { tstat := fun t => if tinib_autoact t &&& 1 = 1 then .ready else .suspended,
    curpri := fun t => tinib_inipri m t,
    actcnt := fun t => if tinib_autoact t &&& 1 = 1 then 1 else 0,
    lastres := fun _ => none,
    prevpri := fun _ => 0,
    prevres := fun _ => none,
    holder := fun _ => none }

/-- Kernel state reached after a sequence of API events from the initial
state. -/
def run (m : Nat) (es : List Ev) : KState :=
  es.foldl (step m) (initKState m)

/-! ### Counter / alarm engine

Modelled from the spec (alarm.c is not in the snapshot).  The counter's
expiry-ordered alarm list is kept delta-encoded: each entry carries the
number of ticks between its expiry and that of its predecessor, so the
head's delta is its true remaining ticks and only the head is decremented
on a tick, exactly as the spec describes; an entry's true remaining ticks
is the sum of the deltas up to and including it. -/

/-- State of one counter: current tick value and the expiry-ordered
alarm queue, as (delta, alarm id) pairs. -/
structure CntState where
  curval : Nat
  almque : List (Nat × Nat)

/-- Insert an alarm due in `d` ticks into a delta-encoded expiry-ordered
queue; an alarm due at the same tick as existing entries goes after them
(FIFO among simultaneous expiries). -/
def insertAlarm (d : Nat) (a : Nat) : List (Nat × Nat) → List (Nat × Nat)
  | [] => [(d, a)]
  | (d0, b) :: q =>
      if d < d0 then (d, a) :: (d0 - d, b) :: q
      else (d0, b) :: insertAlarm (d - d0) a q

/-- Alarms of the queue's due prefix (delta 0): they expire on the same
tick as the entry before them. -/
def takeDue (q : List (Nat × Nat)) : List Nat :=
  (q.takeWhile (fun p => p.1 = 0)).map (fun p => p.2)

/-- Queue with the due prefix removed. -/
def dropDue (q : List (Nat × Nat)) : List (Nat × Nat) :=
  q.dropWhile (fun p => p.1 = 0)

/-- True remaining ticks of alarm `a` in a delta-encoded queue. -/
def remainingTicks (acc : Nat) : List (Nat × Nat) → Nat → Option Nat
  | [], _ => none
  | (d, b) :: q, a => if b = a then some (acc + d) else remainingTicks (acc + d) q a

/-- Modelled from the spec: `Tick(counter)` (OSEK `SignalCounter` /
`SignalCounterImpl`, alarm.c is not in the snapshot).  Advances the
counter value by one tick, wrapping at the configured maximum + 1 back to
zero; decrements the remaining ticks of the queue head and, when it
reaches zero, fires it together with every queued alarm due on the same
tick, reinserting each cyclic alarm with its configured cycle.  Returns
the list of fired alarms in firing order. -/
def SignalCounter (c : CntState) : List Nat × CntState :=
  let newval := (c.curval + 1) % (cntinib_maxval 0 + 1)
  match c.almque with
  | [] => ([], { curval := newval, almque := [] })
  | (d, a) :: rest =>
      if d ≤ 1 then
        let fired := a :: takeDue rest
        let q1 := fired.foldl
          (fun q b => if 0 < alminib_cycle b then insertAlarm (alminib_cycle b) b q else q)
          (dropDue rest)
        (fired, { curval := newval, almque := q1 })
      else ([], { curval := newval, almque := (d - 1, a) :: rest })

/-- Modelled from the spec: the counter state after `object_initialize`
(alarm part).  Both alarms auto-start in the default application mode and
are inserted, in alarm-id order, with their configured initial values
(`alminib_almval`, 1 tick each here). -/
def initCntState : CntState :=
  { curval := 0,
    almque := insertAlarm (alminib_almval 1) 1 (insertAlarm (alminib_almval 0) 0 []) }

/-- One timer tick of the whole system: fire due alarms, then run each
fired alarm's callback, which activates its configured task. -/
def sysTick (m : Nat) (p : KState × CntState) : KState × CntState :=
  let fc := SignalCounter p.2
  (fc.1.foldl (fun k a => step m k (.act (alminib_cback_target a))) p.1, fc.2)

/-! ### Scheduler selection

Modelled from the spec (osek kernel task dispatch code is not in the
snapshot).  `Schedule` selects among the `READY` tasks the one with the
numerically highest effective priority, ties broken in favour of the
earlier arrival (the ready list is kept in arrival order); the running
task is preempted only by a strictly higher effective priority, the
preempted task returning to the head of the ready list. -/

/-- Scheduler view of the system: the running task (if any), the ready
list in arrival order, and each task's effective priority. -/
structure SchedState where
  runtsk : Option Nat
  ready : List Nat
  pri : Nat → Nat

/-- Earliest task of maximal priority in an arrival-ordered list. -/
def pickBest (p : Nat → Nat) : List Nat → Option Nat
  | [] => none
  | t :: ts =>
      match pickBest p ts with
      | none => some t
      | some u => if p t < p u then some u else some t

/-- Modelled from the spec: `Schedule()`.  If the best ready task has a
strictly higher effective priority than the running task (or no task is
running), it becomes the running task; otherwise nothing changes. -/
def schedule (s : SchedState) : SchedState :=
  match pickBest s.pri s.ready with
  | none => s
  | some b =>
      match s.runtsk with
      | none => { s with runtsk := some b, ready := s.ready.erase b }
      | some r =>
          if s.pri r < s.pri b then
            { s with runtsk := some b, ready := r :: s.ready.erase b }
          else s

/-! ### Theorems -/

/-- Every configured base priority is at most `TPRI_MINTASK + 10`, the
base priority of MotorRegulatorTask. -/
theorem tinib_inipri_le (m t : Nat) : tinib_inipri m t ≤ m + 10 := by
  rcases t with _ | _ | _ | t <;> simp [tinib_inipri]

/-- Success equation for `ActivateTask` below the activation limit. -/
theorem ActivateTask_ok (s : KState) (t : Nat) (htn : ¬ tnum_task ≤ t)
    (h : s.actcnt t < tinib_maxact t + 1) :
    ActivateTask s t = .ok { s with
      actcnt := fun x => if x = t then s.actcnt t + 1 else s.actcnt x,
      tstat := fun x =>
        if x = t then (if s.tstat t = .suspended then .ready else s.tstat t)
        else s.tstat x } := by
  unfold ActivateTask
  rw [if_neg htn, if_pos h]

/-- Success equation for `ReleaseResource` on the last-held resource. -/
theorem ReleaseResource_ok (s : KState) (t r : Nat) (htn : ¬ tnum_task ≤ t)
    (hrn : ¬ tnum_resource ≤ r) (h : s.lastres t = some r) :
    ReleaseResource s t r = .ok { s with
      curpri := fun x => if x = t then s.prevpri r else s.curpri x,
      lastres := fun x => if x = t then s.prevres r else s.lastres x,
      holder := fun x => if x = r then none else s.holder x } := by
  unfold ReleaseResource
  rw [if_neg htn, if_neg hrn, if_pos h]

/-- Success equation for `GetResource` when the task holds nothing and the
resource is free. -/
theorem GetResource_ok (m : Nat) (s : KState) (t r : Nat) (htn : ¬ tnum_task ≤ t)
    (hrn : ¬ tnum_resource ≤ r) (hl : s.lastres t = none) (hh : s.holder r = none) :
    GetResource m s t r = .ok { s with
      curpri := fun x => if x = t then resinib_ceilpri m r else s.curpri x,
      prevpri := fun x => if x = r then s.curpri t else s.prevpri x,
      prevres := fun x => if x = r then s.lastres t else s.prevres x,
      lastres := fun x => if x = t then some r else s.lastres x,
      holder := fun x => if x = r then some t else s.holder x } := by
  unfold GetResource
  rw [if_neg htn, if_neg hrn, hl, hh]
  simp

/-- Claim C4: starting from counter SysTimerCnt at tick 0 with both
configured alarms auto-started and due after 1 tick, one tick fires both
alarm actions in order (MotorRegulatorAlarm then LCDAlarm), activating
MotorRegulatorTask and LCDTask, each of which moves from SUSPENDED to
READY; both alarms being cyclic, they are reinserted into the counter's
expiry-ordered queue with remaining ticks 4 and 100 respectively. -/
theorem first_tick_fires_both_alarms (m : Nat) :
    (SignalCounter initCntState).1 = [MotorRegulatorAlarm, LCDAlarm] ∧
    (initKState m).tstat MotorRegulatorTask = .suspended ∧
    (initKState m).tstat LCDTask = .suspended ∧
    (sysTick m (initKState m, initCntState)).1.tstat MotorRegulatorTask = .ready ∧
    (sysTick m (initKState m, initCntState)).1.tstat LCDTask = .ready ∧
    remainingTicks 0 (sysTick m (initKState m, initCntState)).2.almque MotorRegulatorAlarm
      = some (alminib_cycle MotorRegulatorAlarm) ∧
    remainingTicks 0 (sysTick m (initKState m, initCntState)).2.almque LCDAlarm
      = some (alminib_cycle LCDAlarm) ∧
    alminib_cycle MotorRegulatorAlarm = 4 ∧ alminib_cycle LCDAlarm = 100 ∧
    (sysTick m (initKState m, initCntState)).2.curval = 1 :=
  ⟨rfl, rfl, rfl, rfl, rfl, rfl, rfl, rfl, rfl, rfl⟩

/-- Claim C5: the sole configured resource Motors has ceiling priority
`TPRI_MINTASK + 10`, which equals the base priority of MotorRegulatorTask
and is the highest base priority of any configured task. -/
theorem motors_ceiling_is_highest_base_priority (m : Nat) :
    resinib_ceilpri m Motors = m + 10 ∧
    tinib_inipri m MotorRegulatorTask = m + 10 ∧
    resinib_ceilpri m Motors = tinib_inipri m MotorRegulatorTask ∧
    (∀ t, tinib_inipri m t ≤ tinib_inipri m MotorRegulatorTask) ∧
    tnum_resource = 1 :=
  ⟨rfl, rfl, rfl, fun t => tinib_inipri_le m t, rfl⟩

/-- Claim C7: a tick always advances the counter value to
`(value + 1) mod (maximum + 1)`, so passing the configured maximum
(100000 for SysTimerCnt) wraps the value back to zero; `SignalCounter`
is total, reporting no error. -/
theorem tick_wraps_at_maxval :
    (∀ c : CntState, (SignalCounter c).2.curval = (c.curval + 1) % (cntinib_maxval SysTimerCnt + 1)) ∧
    cntinib_maxval SysTimerCnt = 100000 ∧
    (SignalCounter { curval := 100000, almque := [] }).2.curval = 0 ∧
    (SignalCounter { curval := 99999, almque := [] }).2.curval = 100000 := by
  refine ⟨?_, rfl, by decide, by decide⟩
  intro c
  unfold SignalCounter
  rcases hq : c.almque with _ | ⟨⟨d, a⟩, rest⟩
  · rfl
  · by_cases hd : d ≤ 1 <;> simp [hd, SysTimerCnt]

/-- Claim C9: the auto-activation masks are 0x1 for MainTask and 0x0 for
MotorRegulatorTask and LCDTask, so at initialization MainTask is the only
task in the READY state and the other two start SUSPENDED. -/
theorem only_maintask_autoactivated (m : Nat) :
    tinib_autoact MotorRegulatorTask = 0x00000000 ∧
    tinib_autoact LCDTask = 0x00000000 ∧
    tinib_autoact MainTask = 0x00000001 ∧
    (initKState m).tstat MotorRegulatorTask = .suspended ∧
    (initKState m).tstat LCDTask = .suspended ∧
    (initKState m).tstat MainTask = .ready ∧
    (∀ t, (initKState m).tstat t = .ready ↔ t = MainTask) := by
  refine ⟨rfl, rfl, rfl, rfl, rfl, rfl, ?_⟩
  intro t
  rcases t with _ | _ | _ | t <;> simp [initKState, tinib_autoact, MainTask]

/-- A task selected by `pickBest` is in the list. -/
theorem pickBest_mem (p : Nat → Nat) (l : List Nat) (b : Nat)
    (hb : pickBest p l = some b) : b ∈ l := by
  induction l generalizing b with
  | nil => simp [pickBest] at hb
  | cons t ts ih =>
    unfold pickBest at hb
    rcases hpb : pickBest p ts with _ | u <;> rw [hpb] at hb
    · injection hb with hb
      simp [hb]
    · by_cases hlt : p t < p u <;> simp [hlt] at hb
      · subst hb
        exact List.mem_cons_of_mem t (ih u hpb)
      · simp [hb]

/-- `pickBest` returns `none` only on the empty list. -/
theorem pickBest_eq_none (p : Nat → Nat) (l : List Nat)
    (h : pickBest p l = none) : l = [] := by
  cases l with
  | nil => rfl
  | cons t ts =>
    unfold pickBest at h
    rcases hpb : pickBest p ts with _ | u <;> rw [hpb] at h
    · cases h
    · by_cases hlt : p t < p u <;> simp [hlt] at h

/-- `pickBest` selects a task of maximal priority. -/
theorem pickBest_le (p : Nat → Nat) (l : List Nat) (b : Nat)
    (hb : pickBest p l = some b) : ∀ x ∈ l, p x ≤ p b := by
  induction l generalizing b with
  | nil => simp [pickBest] at hb
  | cons t ts ih =>
    intro x hx
    unfold pickBest at hb
    rcases hpb : pickBest p ts with _ | u <;> rw [hpb] at hb
    · injection hb with hb
      subst hb
      rcases List.mem_cons.mp hx with hx | hx
      · exact hx ▸ le_refl _
      · rw [pickBest_eq_none p ts hpb] at hx
        simp at hx
    · by_cases hlt : p t < p u <;> simp [hlt] at hb <;> subst hb
      · rcases List.mem_cons.mp hx with hx | hx
        · exact hx ▸ le_of_lt hlt
        · exact ih u hpb x hx
      · rcases List.mem_cons.mp hx with hx | hx
        · exact hx ▸ le_refl _
        · exact le_trans (ih u hpb x hx) (not_lt.mp hlt)

/-- One `Schedule` call establishes that no ready task has priority above
the running task, so a second call changes nothing. -/
theorem schedule_idem (s : SchedState) : schedule (schedule s) = schedule s := by
  rcases h1 : pickBest s.pri s.ready with _ | b
  · have hs : schedule s = s := by unfold schedule; rw [h1]
    rw [hs, hs]
  · rcases h2 : s.runtsk with _ | r
    · have hs : schedule s = { s with runtsk := some b, ready := s.ready.erase b } := by
        unfold schedule
        rw [h1, h2]
      rw [hs]
      unfold schedule
      simp only
      rcases h3 : pickBest s.pri (s.ready.erase b) with _ | c
      · rfl
      · have hcb : s.pri c ≤ s.pri b :=
          pickBest_le s.pri s.ready b h1 c
            (List.mem_of_mem_erase (pickBest_mem s.pri _ c h3))
        simp [not_lt.mpr hcb]
    · by_cases hrb : s.pri r < s.pri b
      · have hs : schedule s = { s with runtsk := some b, ready := r :: s.ready.erase b } := by
          unfold schedule
          rw [h1, h2]
          dsimp only
          rw [if_pos hrb]
        rw [hs]
        unfold schedule
        simp only
        rcases h3 : pickBest s.pri (r :: s.ready.erase b) with _ | c
        · rfl
        · have hcb : s.pri c ≤ s.pri b := by
            rcases List.mem_cons.mp (pickBest_mem s.pri _ c h3) with hc | hc
            · exact hc ▸ le_of_lt hrb
            · exact pickBest_le s.pri s.ready b h1 c (List.mem_of_mem_erase hc)
          simp [not_lt.mpr hcb]
      · have hs : schedule s = s := by
          unfold schedule
          rw [h1, h2]
          dsimp only
          rw [if_neg hrb]
        rw [hs, hs]

/-- Claim C8: `Schedule` is idempotent — iterating it any number of times
with no intervening state-changing event leaves the whole scheduler
state, and in particular the running task, exactly as after one call. -/
theorem schedule_is_idempotent (s : SchedState) (n : Nat) :
    (schedule^[n] (schedule s)).runtsk = (schedule s).runtsk ∧
    schedule^[n] (schedule s) = schedule s := by
  have h : schedule^[n] (schedule s) = schedule s := by
    induction n with
    | zero => simp
    | succ k ih => rw [Function.iterate_succ_apply, schedule_idem]; exact ih
  exact ⟨by rw [h], h⟩

/-- Behaviour of `Activate` as claim C3 states it: with the stored limit 0
(configured maximum 1), a call below the maximum increments the count and
readies a suspended task, touching nothing else; a call at the maximum is
dropped with the over-activation error `E_OS_LIMIT`. -/
def ActivateSpec (s : KState) (t : Nat) : Prop :=
  tinib_maxact t = 0 ∧
  (s.actcnt t < tinib_maxact t + 1 →
    ∃ s1, ActivateTask s t = .ok s1 ∧
      s1.actcnt t = s.actcnt t + 1 ∧
      (s.tstat t = .suspended → s1.tstat t = .ready) ∧
      (s.tstat t ≠ .suspended → s1.tstat t = s.tstat t) ∧
      (∀ u, u ≠ t → s1.tstat u = s.tstat u ∧ s1.actcnt u = s.actcnt u) ∧
      s1.curpri = s.curpri ∧ s1.lastres = s.lastres ∧ s1.holder = s.holder) ∧
  (tinib_maxact t + 1 ≤ s.actcnt t → ActivateTask s t = .error .E_OS_LIMIT)

/-- Claim C3: `Activate(task)` increments the activation count and readies
a suspended task exactly when the count is below the configured maximum;
at the maximum the request is dropped, the state is unchanged and
`E_OS_LIMIT` is reported; the configuration stores limit (1)-1 = 0 for
all three tasks, allowing exactly one pending activation. -/
theorem activate_respects_maxact (s : KState) (t : Nat) (ht : t < tnum_task) :
    ActivateSpec s t := by
  have htn : ¬ tnum_task ≤ t := not_le.mpr ht
  refine ⟨?_, ?_, ?_⟩
  · rcases t with _ | _ | _ | t <;> rfl
  · intro h
    refine ⟨_, ActivateTask_ok s t htn h, ?_, ?_, ?_, ?_, rfl, rfl, rfl⟩
    · simp
    · intro hsusp
      simp [hsusp]
    · intro hns
      simp [hns]
    · intro u hu
      exact ⟨by simp [hu], by simp [hu]⟩
  · intro h
    unfold ActivateTask
    rw [if_neg htn, if_neg (not_lt.mpr h)]

/-- Closed witness for `activate_respects_maxact`. -/
theorem activate_respects_maxact_witness :
    0 < tnum_task ∧ ActivateSpec (initKState 0) 0 :=
  ⟨by decide, activate_respects_maxact (initKState 0) 0 (by decide)⟩

/-- Behaviour of `Release` as claim C2 states it: releasing anything but
the most recently acquired, still-held resource is rejected with the
reported error `E_OS_NOFUNC`; a successful release restores the priority
recorded at acquisition and unlinks the resource, and an acquire/release
pair restores the task's priority and resource chain (LIFO discipline). -/
def ReleaseSpec (m : Nat) (s : KState) (t r : Nat) : Prop :=
  (s.lastres t ≠ some r → ReleaseResource s t r = .error .E_OS_NOFUNC) ∧
  (s.lastres t = some r →
    ∃ s1, ReleaseResource s t r = .ok s1 ∧
      s1.curpri t = s.prevpri r ∧ s1.lastres t = s.prevres r ∧ s1.holder r = none) ∧
  (∀ s1, GetResource m s t r = .ok s1 →
    s1.prevpri r = s.curpri t ∧ s1.lastres t = some r ∧
    ∃ s2, ReleaseResource s1 t r = .ok s2 ∧
      s2.curpri t = s.curpri t ∧ s2.lastres t = s.lastres t)

/-- Claim C2: `Release(task, resource)` fails with a reported error
whenever the resource is not the task's most recently acquired,
still-held resource; on success it restores the priority recorded at
acquisition and unlinks the resource, so releases follow exact LIFO
order. -/
theorem release_requires_lifo (m : Nat) (s : KState) (t r : Nat)
    (ht : t < tnum_task) (hr : r < tnum_resource) : ReleaseSpec m s t r := by
  have htn : ¬ tnum_task ≤ t := not_le.mpr ht
  have hrn : ¬ tnum_resource ≤ r := not_le.mpr hr
  refine ⟨?_, ?_, ?_⟩
  · intro h
    unfold ReleaseResource
    rw [if_neg htn, if_neg hrn, if_neg h]
  · intro h
    refine ⟨_, ReleaseResource_ok s t r htn hrn h, by simp, by simp, by simp⟩
  · intro s1 hG
    unfold GetResource at hG
    rw [if_neg htn, if_neg hrn] at hG
    split_ifs at hG with h3 h4
    injection hG with hG
    subst hG
    refine ⟨by simp, by simp, ?_⟩
    refine ⟨_, ReleaseResource_ok _ t r htn hrn (by simp), by simp, by simp⟩

/-- Closed witness for `release_requires_lifo`. -/
theorem release_requires_lifo_witness :
    0 < tnum_task ∧ 0 < tnum_resource ∧ ReleaseSpec 0 (initKState 0) 0 0 :=
  ⟨by decide, by decide, release_requires_lifo 0 (initKState 0) 0 0 (by decide) (by decide)⟩

/-- Bookkeeping performed by a successful `Acquire` followed by its
matching `Release`, as claim C6 states it: the resource records its
holder and the holder's prior priority, the task's last-resource pointer
moves to the new resource while the resource's previous-resource link
saves the old pointer (the per-task stack), and the matching release pops
the stack and clears the holder. -/
def AcquireSpec (m : Nat) (s : KState) (t r : Nat) : Prop :=
  ∃ s1, GetResource m s t r = .ok s1 ∧
    s1.holder r = some t ∧
    s1.prevpri r = s.curpri t ∧
    s1.prevres r = s.lastres t ∧
    s1.lastres t = some r ∧
    s1.curpri t = resinib_ceilpri m r ∧
    (∀ u, u ≠ t → s1.lastres u = s.lastres u) ∧
    ∃ s2, ReleaseResource s1 t r = .ok s2 ∧
      s2.lastres t = s.lastres t ∧ s2.curpri t = s.curpri t ∧ s2.holder r = none

/-- Claim C6: the Resource Manager maintains, per resource, the holding
task and the holder's priority prior to acquisition, and per task a
pointer to the most recently acquired unreleased resource, the resources'
previous-resource links forming the per-task stack of held resources. -/
theorem resource_manager_bookkeeping (m : Nat) (s : KState) (t r : Nat)
    (ht : t < tnum_task) (hr : r < tnum_resource)
    (hl : s.lastres t = none) (hh : s.holder r = none) : AcquireSpec m s t r := by
  have htn : ¬ tnum_task ≤ t := not_le.mpr ht
  have hrn : ¬ tnum_resource ≤ r := not_le.mpr hr
  refine ⟨_, GetResource_ok m s t r htn hrn hl hh, by simp, by simp, by simp, by simp,
    by simp, ?_, ?_⟩
  · intro u hu
    simp [hu]
  · refine ⟨_, ReleaseResource_ok _ t r htn hrn (by simp), by simp [hl], by simp, by simp⟩

/-- Closed witness for `resource_manager_bookkeeping`. -/
theorem resource_manager_bookkeeping_witness :
    0 < tnum_task ∧ 0 < tnum_resource ∧
    (initKState 0).lastres 0 = none ∧ (initKState 0).holder 0 = none ∧
    AcquireSpec 0 (initKState 0) 0 0 :=
  ⟨by decide, by decide, by decide, by decide,
    resource_manager_bookkeeping 0 (initKState 0) 0 0
      (by decide) (by decide) (by decide) (by decide)⟩

/-- Reachability invariant of the kernel state for this configuration
(three tasks, single resource Motors with ceiling `m + 10`): a task
holding nothing sits at its base priority; a task holding a resource
holds Motors, sits at the ceiling, is recorded as the holder, and the
resource records the holder's base priority and an empty previous-resource
link; the recorded holder really holds the resource. -/
def Inv (m : Nat) (s : KState) : Prop :=
  ∀ t,
    (s.lastres t = none → s.curpri t = tinib_inipri m t) ∧
    (∀ r, s.lastres t = some r → r = 0 ∧ s.curpri t = m + 10 ∧
      s.holder 0 = some t ∧ s.prevpri 0 = tinib_inipri m t ∧ s.prevres 0 = none) ∧
    (s.holder 0 = some t → s.lastres t = some 0)

/-- The invariant holds initially. -/
theorem inv_init (m : Nat) : Inv m (initKState m) := by
  intro t
  refine ⟨fun _ => rfl, ?_, ?_⟩
  · intro r hr
    simp [initKState] at hr
  · intro hh
    simp [initKState] at hh

/-- The invariant only involves the priority and resource fields. -/
theorem Inv_congr (m : Nat) (s s' : KState) (h1 : s'.curpri = s.curpri)
    (h2 : s'.lastres = s.lastres) (h3 : s'.prevpri = s.prevpri)
    (h4 : s'.prevres = s.prevres) (h5 : s'.holder = s.holder)
    (h : Inv m s) : Inv m s' := by
  intro t
  rw [h1, h2, h3, h4, h5]
  exact h t

/-- The invariant is preserved by every kernel API event, whether the call
succeeds or reports an error. -/
theorem inv_step (m : Nat) (s : KState) (e : Ev) (h : Inv m s) :
    Inv m (step m s e) := by
  cases e with
  | act t =>
    simp only [step, applyEv]
    cases hA : ActivateTask s t with
    | error e => exact h
    | ok s1 =>
      show Inv m s1
      unfold ActivateTask at hA
      by_cases h1 : tnum_task ≤ t
      · rw [if_pos h1] at hA
        simp at hA
      · rw [if_neg h1] at hA
        by_cases h2 : s.actcnt t < tinib_maxact t + 1
        · rw [if_pos h2] at hA
          injection hA with hA
          subst hA
          exact Inv_congr m s _ rfl rfl rfl rfl rfl h
        · rw [if_neg h2] at hA
          simp at hA
  | term t =>
    simp only [step, applyEv]
    cases hT : TerminateTask s t with
    | error e => exact h
    | ok s1 =>
      show Inv m s1
      unfold TerminateTask at hT
      by_cases h1 : tnum_task ≤ t
      · rw [if_pos h1] at hT
        simp at hT
      · rw [if_neg h1] at hT
        injection hT with hT
        subst hT
        exact Inv_congr m s _ rfl rfl rfl rfl rfl h
  | get t r =>
    simp only [step, applyEv]
    cases hG : GetResource m s t r with
    | error e => exact h
    | ok s1 =>
      show Inv m s1
      unfold GetResource at hG
      by_cases h1 : tnum_task ≤ t
      · rw [if_pos h1] at hG
        simp at hG
      by_cases h2 : tnum_resource ≤ r
      · rw [if_neg h1, if_pos h2] at hG
        simp at hG
      by_cases h3 : (match s.lastres t with
        | some r0 => decide (resinib_ceilpri m r ≤ resinib_ceilpri m r0)
        | none => false) = true
      · rw [if_neg h1, if_neg h2, if_pos h3] at hG
        simp at hG
      by_cases h4 : (match s.holder r with
        | some u => decide (u ≠ t)
        | none => false) = true
      · rw [if_neg h1, if_neg h2, if_neg h3, if_pos h4] at hG
        simp at hG
      rw [if_neg h1, if_neg h2, if_neg h3, if_neg h4] at hG
      injection hG with hG
      subst hG
      have hr0 : r = 0 := by
        unfold tnum_resource at h2
        omega
      subst hr0
      have hlnone : s.lastres t = none := by
        cases hL : s.lastres t with
        | none => rfl
        | some r0 =>
          exfalso
          apply h3
          rw [hL]
          obtain ⟨hr00, _⟩ := (h t).2.1 r0 hL
          subst hr00
          simp
      have hhnone : s.holder 0 = none := by
        cases hH : s.holder 0 with
        | none => rfl
        | some u =>
          exfalso
          by_cases hu : u = t
          · subst hu
            have := (h u).2.2 hH
            rw [hlnone] at this
            cases this
          · apply h4
            rw [hH]
            simp [hu]
      intro x
      by_cases hx : x = t
      · subst hx
        refine ⟨?_, ?_, ?_⟩
        · intro hcc
          simp at hcc
        · intro r' hr'
          simp at hr'
          subst hr'
          refine ⟨rfl, by simp [resinib_ceilpri], by simp, ?_, ?_⟩
          · simp [(h x).1 hlnone]
          · simp [hlnone]
        · intro _
          simp
      · have hlx : s.lastres x = none := by
          cases hL : s.lastres x with
          | none => rfl
          | some r0 =>
            obtain ⟨_, _, hhold, _, _⟩ := (h x).2.1 r0 hL
            rw [hhnone] at hhold
            cases hhold
        refine ⟨?_, ?_, ?_⟩
        · intro _
          simp [hx]
          exact (h x).1 hlx
        · intro r' hr'
          simp [hx, hlx] at hr'
        · intro hhx
          simp [hx] at hhx
          exact absurd hhx.symm hx
  | rel t r =>
    simp only [step, applyEv]
    cases hR : ReleaseResource s t r with
    | error e => exact h
    | ok s1 =>
      show Inv m s1
      unfold ReleaseResource at hR
      by_cases h1 : tnum_task ≤ t
      · rw [if_pos h1] at hR
        simp at hR
      by_cases h2 : tnum_resource ≤ r
      · rw [if_neg h1, if_pos h2] at hR
        simp at hR
      by_cases h3 : s.lastres t = some r
      case neg =>
        rw [if_neg h1, if_neg h2, if_neg h3] at hR
        simp at hR
      case pos =>
        rw [if_neg h1, if_neg h2, if_pos h3] at hR
        injection hR with hR
        subst hR
        have hr0 : r = 0 := by
          unfold tnum_resource at h2
          omega
        subst hr0
        obtain ⟨_, hcur, hhold, hprevpri, hprevres⟩ := (h t).2.1 0 h3
        intro x
        by_cases hx : x = t
        · subst hx
          refine ⟨?_, ?_, ?_⟩
          · intro _
            simp [hprevpri]
          · intro r' hr'
            simp [hprevres] at hr'
          · intro hhx
            simp at hhx
        · have hlx : s.lastres x = none := by
            cases hL : s.lastres x with
            | none => rfl
            | some r0 =>
              obtain ⟨_, _, hhold2, _, _⟩ := (h x).2.1 r0 hL
              rw [hhold] at hhold2
              injection hhold2 with hhold2
              exact absurd hhold2.symm hx
          refine ⟨?_, ?_, ?_⟩
          · intro _
            simp [hx]
            exact (h x).1 hlx
          · intro r' hr'
            simp [hx, hlx] at hr'
          · intro hhx
            simp at hhx

/-- The invariant holds in every reachable kernel state. -/
theorem inv_run (m : Nat) (es : List Ev) : Inv m (run m es) := by
  have hfold : ∀ (l : List Ev) (s : KState), Inv m s → Inv m (l.foldl (step m) s) := by
    intro l
    induction l with
    | nil => intro s hs; exact hs
    | cons e l ih => intro s hs; exact ih _ (inv_step m s e hs)
  exact hfold es _ (inv_init m)

/-- Claim C1, counterexample to the claim as stated: after MotorRegulatorTask
(base priority `TPRI_MINTASK + 10`, here with `TPRI_MINTASK = 0`) acquires
Motors (ceiling `TPRI_MINTASK + 10`), its effective priority equals its
base priority even though it holds a resource, so effective priority can
equal base priority while a resource is held. -/
theorem effective_priority_iff_counterexample :
    ¬ (∀ (es : List Ev) (t : Nat),
        (run 0 es).curpri t = tinib_inipri 0 t ↔ (run 0 es).lastres t = none) := by
  intro hclaim
  have h := (hclaim [.act 0, .get 0 0] 0).mp (by decide)
  exact absurd h (by decide)

/-- Claim C1 as amended: in every reachable kernel state, every task's
effective priority is at least its base priority; a task holding no
resource sits exactly at its base priority; and a task holding resources
sits at the ceiling of its most recently acquired resource, the highest
ceiling among those it holds.  (The converse direction of the original
claim fails: equality with the base priority can also occur while a
resource whose ceiling equals the base priority is held.) -/
theorem effective_priority_invariant (m : Nat) (es : List Ev) (t : Nat) :
    tinib_inipri m t ≤ (run m es).curpri t ∧
    ((run m es).lastres t = none → (run m es).curpri t = tinib_inipri m t) ∧
    (∀ r, (run m es).lastres t = some r →
      (run m es).curpri t = resinib_ceilpri m r) := by
  have h := inv_run m es t
  refine ⟨?_, h.1, ?_⟩
  · cases hL : (run m es).lastres t with
    | none => rw [h.1 hL]
    | some r =>
      obtain ⟨_, hcur, _⟩ := h.2.1 r hL
      rw [hcur]
      exact tinib_inipri_le m t
  · intro r hr
    obtain ⟨hr0, hcur, _⟩ := h.2.1 r hr
    subst hr0
    rw [hcur]
    rfl

/-- Closed witness for `effective_priority_invariant`. -/
theorem effective_priority_invariant_witness :
    (run 0 [.act 0, .get 0 0]).lastres 0 = some 0 ∧
    (run 0 [.act 0, .get 0 0]).curpri 0 = resinib_ceilpri 0 0 :=
  ⟨by decide,
    (effective_priority_invariant 0 [.act 0, .get 0 0] 0).2.2 0 (by decide)⟩

/-- Claim C10: for the single configured counter SysTimerCnt, the
secondary maximum equals twice the configured maximum plus one:
200001 = 2 * 100000 + 1. -/
theorem maxval2_is_twice_maxval_plus_one :
    cntinib_maxval2 SysTimerCnt = 200001 ∧
    cntinib_maxval SysTimerCnt = 100000 ∧
    cntinib_maxval2 SysTimerCnt = 2 * cntinib_maxval SysTimerCnt + 1 ∧
    tnum_counter = 1 := by
  refine ⟨rfl, rfl, rfl, rfl⟩

end RA15
